import Mathlib

/-
  Verification development for the BLogger asynchronous logging engine.

  Shallow embedding of:
  - the rotating file writer `FileManager`
    (src/include/BLogger/Loggers/FileManager.h), and
  - the task queue / worker pool `thread_pool`
    (src/include/BLogger/Loggers/BLoggerAsync.h).

  The OS file API is modelled explicitly: every place where the code opens
  a file takes a boolean `openOk` saying whether the OS open succeeds, the
  bytes of the currently open file are carried as a list, and the number of
  OS handles the writer holds open is tracked as a counter.
-/

namespace BLogger

/-- Model of `FileManager` (FileManager.h, lines 11-184).  `hasFile` models
whether the `m_File` pointer is non-null, `fileContent` the bytes written so
far into the currently open file, and `openHandles` the number of OS file
handles the writer currently holds open (incremented by a successful open,
decremented by `fclose`). -/
structure FileManager where
  hasFile : Bool
  fileContent : List Nat
  m_DirectoryPath : String
  m_CachedTag : String
  m_BytesPerFile : Nat
  m_CurrentBytes : Nat
  m_MaxLogFiles : Nat
  m_CurrentLogFiles : Nat
  m_RotateLogs : Bool
  m_State : Bool
  openHandles : Nat
deriving DecidableEq

/-- The default constructor (FileManager.h, lines 28-38): null file, directory
path "none", all counters zero, rotation off, health flag true. -/
def FileManager.mkDefault : FileManager :=
  { hasFile := false
    fileContent := []
    m_DirectoryPath := "none"
    m_CachedTag := ""
    m_BytesPerFile := 0
    m_CurrentBytes := 0
    m_MaxLogFiles := 0
    m_CurrentLogFiles := 0
    m_RotateLogs := false
    m_State := true
    openHandles := 0 }

/-- Model of `ready()` (line 147): the file pointer is non-null. -/
def FileManager.ready (m : FileManager) : Bool := m.hasFile

/-- Model of `ok()` (line 89): the health flag. -/
def FileManager.ok (m : FileManager) : Bool := m.m_State

/-- Model of `constructFullPath` (lines 158-167). -/
def FileManager.constructFullPath (m : FileManager) : String :=
  m.m_DirectoryPath ++ m.m_CachedTag ++ "-" ++ toString m.m_CurrentLogFiles ++ ".log"

/-- Model of `newLogFile` (lines 169-183): close the current handle if any,
then attempt to open the next file (`openOk` says whether the OS open
succeeds); the health flag is set from the resulting pointer. -/
def FileManager.newLogFile (m : FileManager) (openOk : Bool) : FileManager :=
  let m1 := if m.hasFile = true then
      { m with hasFile := false, openHandles := m.openHandles - 1 }
    else m
  if openOk = true then
    { m1 with hasFile := true, fileContent := [],
              openHandles := m1.openHandles + 1, m_State := true }
  else
    { m1 with m_State := false }

/-- Model of `init` (lines 46-76): store the configuration, reset
`m_CurrentBytes` to 0 and `m_CurrentLogFiles` to 1, append a slash to the
directory path, open the first file, and return whether the file pointer is
non-null afterwards. -/
def FileManager.init (m : FileManager) (directoryPath loggerTag : String)
    (bytesPerFile maxLogFiles : Nat) (rotateLogs : Bool) (openOk : Bool) :
    FileManager × Bool :=
  let m1 := { m with
    m_CachedTag := loggerTag
    m_BytesPerFile := bytesPerFile
    m_MaxLogFiles := maxLogFiles
    m_RotateLogs := rotateLogs
    m_CurrentBytes := 0
    m_CurrentLogFiles := 1
    m_DirectoryPath := directoryPath ++ "/" }
  let m2 := m1.newLogFile openOk
  (m2, m2.hasFile)

/-- Model of `terminate` (lines 78-87): close the handle if open. -/
def FileManager.terminate (m : FileManager) : FileManager :=
  if m.hasFile = true then
    { m with hasFile := false, openHandles := m.openHandles - 1 }
  else m

/-- Model of `setTag` (lines 40-44). -/
def FileManager.setTag (m : FileManager) (tag : String) : FileManager :=
  { m with m_CachedTag := tag }

/-- Model of `flush` (lines 132-138): an OS-level fflush, which changes none
of the modelled state. -/
def FileManager.flush (m : FileManager) : FileManager := m

/-- The tail of `write` (lines 127-129): `m_CurrentBytes += size` with
`size = data.length + 1`, then `fwrite(data, 1, size - 1, m_File)` appends
exactly `data.length` bytes to the open file. -/
def FileManager.finishWrite (m : FileManager) (data : List Nat) : FileManager :=
  let m3 := { m with m_CurrentBytes := m.m_CurrentBytes + (data.length + 1) }
  if m3.hasFile = true then { m3 with fileContent := m3.fileContent ++ data }
  else m3

/-- Model of `write` (lines 94-130).  Early return when the file is not open;
`++size` makes the accounted size `data.length + 1`; a record whose accounted
size exceeds `m_BytesPerFile` (when nonzero) is rejected; when appending
would exceed the budget, either wrap the index to 1 (at `m_MaxLogFiles` with
rotation on), reject (rotation off), or increment the index, in each rollover
case opening the new file; finally append. -/
def FileManager.write (m : FileManager) (data : List Nat) (openOk : Bool) :
    FileManager :=
  if m.hasFile = false then m
  else if m.m_BytesPerFile ≠ 0 ∧ data.length + 1 > m.m_BytesPerFile then m
  else if m.m_BytesPerFile ≠ 0 ∧
      m.m_CurrentBytes + (data.length + 1) > m.m_BytesPerFile then
    if m.m_CurrentLogFiles = m.m_MaxLogFiles then
      if m.m_RotateLogs = false then m
      else
        FileManager.finishWrite
          (FileManager.newLogFile
            { m with m_CurrentLogFiles := 1, m_CurrentBytes := 0 } openOk)
          data
    else
      FileManager.finishWrite
        (FileManager.newLogFile
          { m with m_CurrentBytes := 0,
                   m_CurrentLogFiles := m.m_CurrentLogFiles + 1 } openOk)
        data
  else
    FileManager.finishWrite m data

/-- Log severity levels (LogLevels.h, used by the worker's color switch). -/
inductive level
  | trace
  | debug
  | info
  | warn
  | error
  | crit
deriving DecidableEq

/-- Model of `LogMsg` as enqueued by `post`: sender id, the formatted bytes,
and the console / file / colorize flags plus the severity. -/
structure LogMsg where
  sender : Nat
  data : List Nat
  console : Bool
  file : Bool
  color : Bool
  log_level : level
deriving DecidableEq

/-- The task hierarchy (BLoggerAsync.h, lines 17-63) as a sum type:
a `log_task` carrying a `LogMsg`, or a `flush_task`. -/
inductive task
  | log (msg : LogMsg)
  | flush
deriving DecidableEq

/-- BLOGGER_TASK_LIMIT (BLoggerAsync.h, line 65): the queue capacity bound. -/
def BLOGGER_TASK_LIMIT : Nat := 100

/-- Model of `thread_pool::post` (lines 199-209): under the queue lock, if
the queue size equals BLOGGER_TASK_LIMIT pop the front, then push the new
log task at the back.  The queue is the list with its head at the front. -/
def thread_pool.post (q : List task) (msg : LogMsg) : List task :=
  let q1 := if q.length = BLOGGER_TASK_LIMIT then q.drop 1 else q
  q1 ++ [task.log msg]

/-- Model of `thread_pool::flush` (lines 211-215): under the queue lock,
push a flush task at the back (no capacity check appears in the code). -/
def thread_pool.flush (q : List task) : List task :=
  q ++ [task.flush]

/-- The registry `m_Files` mapping a logger id to its file helper. -/
def logger_to_file : Type := Nat → Option FileManager

/-- A registry with no entries. -/
def no_files : logger_to_file := fun _ => none

/-- Model of `thread_pool::add_helper` (lines 217-220): `m_Files[id] = fhptr`. -/
def thread_pool.add_helper (id : Nat) (fh : FileManager)
    (files : logger_to_file) : logger_to_file :=
  fun i => if i = id then some fh else files i

/-- Model of `thread_pool::remove_helper` (lines 222-228): erase the entry
for `id` when present. -/
def thread_pool.remove_helper (id : Nat) (files : logger_to_file) :
    logger_to_file :=
  fun i => if i = id then none else files i

/-- Observable side effects of executing one task: a console write of the
record's bytes under the global output lock, a console flush under the same
lock, or a forwarded write to the file sink registered for a sender. -/
inductive event
  | consoleWrite (data : List Nat)
  | consoleFlush
  | fileWrite (sender : Nat) (data : List Nat)
deriving DecidableEq

/-- Executing one popped task (the body of `do_work`, lines 132-177): for a
log task, a console write happens iff the console flag is set; then, iff the
file flag is set and the sender is found in the registry, the write is
forwarded to that file helper (a miss is silently skipped).  For a flush
task, the console stream is flushed.  Returns the updated registry and the
emitted events in order. -/
def processTask (files : logger_to_file) (t : task) :
    logger_to_file × List event :=
  match t with
  | task.log msg =>
    let consoleEvents : List event :=
      if msg.console = true then [event.consoleWrite msg.data] else []
    match (if msg.file = true then files msg.sender else none) with
    | some fh =>
        (fun i => if i = msg.sender then some (fh.write msg.data true)
                  else files i,
         consoleEvents ++ [event.fileWrite msg.sender msg.data])
    | none => (files, consoleEvents)
  | task.flush => (files, [event.consoleFlush])

/-- State of the worker pool shared data: the task queue, the file registry,
plus the accumulated trace of emitted events and of processed tasks. -/
structure PoolState where
  m_TaskQueue : List task
  m_Files : logger_to_file
  events : List event
  processed : List task

/-- Model of `thread_pool::do_work` (lines 116-179): under the queue lock,
if the queue is empty return false; otherwise pop the front task, execute
it, and return true. -/
def thread_pool.do_work (s : PoolState) : PoolState × Bool :=
  match s.m_TaskQueue with
  | [] => (s, false)
  | t :: rest =>
    ({ m_TaskQueue := rest
       m_Files := (processTask s.m_Files t).1
       events := s.events ++ (processTask s.m_Files t).2
       processed := s.processed ++ [t] }, true)

/-- Model of the `worker` loop (lines 103-114) after `shutdown` has set
`m_Running = false` (lines 181-187): the worker keeps calling `do_work`
while its last poll found work, so it exits only after observing an empty
queue. -/
def thread_pool.worker_drain (s : PoolState) : PoolState :=
  if _hne : s.m_TaskQueue = [] then s
  else thread_pool.worker_drain (thread_pool.do_work s).1
termination_by s.m_TaskQueue.length
decreasing_by
  rcases hq : s.m_TaskQueue with _ | ⟨t, rest⟩
  · exact absurd hq _hne
  · simp [thread_pool.do_work, hq]

/-- The events emitted by executing a list of tasks in order, threading the
registry through. -/
def eventsOfQueue : logger_to_file → List task → List event
  | _, [] => []
  | files, t :: rest =>
      (processTask files t).2 ++ eventsOfQueue (processTask files t).1 rest

/-- A concrete log message used in witnesses and counterexamples. -/
def cmsg : LogMsg :=
  { sender := 0, data := [], console := false, file := false,
    color := false, log_level := level.info }

/-! Concrete writer states used in witnesses and counterexamples. -/

/-- A writer freshly initialised with bytesPerFile = 10, maxFiles = 0 and
rotation on. -/
def c5_m0 : FileManager :=
  (FileManager.mkDefault.init "logs" "app" 10 0 true true).1

/-- The same writer after two accepted 6-byte writes (accounted as 7 bytes
each, so the second one overflows the 10-byte budget). -/
def c5_m2 : FileManager :=
  (c5_m0.write [1, 1, 1, 1, 1, 1] true).write [1, 1, 1, 1, 1, 1] true

/-- A concrete healthy open writer: bytesPerFile = 5, maxFiles = 3,
index 1, rotation on. -/
def fmOpen : FileManager :=
  { hasFile := true
    fileContent := []
    m_DirectoryPath := "logs/"
    m_CachedTag := "app"
    m_BytesPerFile := 5
    m_CurrentBytes := 0
    m_MaxLogFiles := 3
    m_CurrentLogFiles := 1
    m_RotateLogs := true
    m_State := true
    openHandles := 1 }

/-! The writer operation type and the writer invariants (claim C7). -/

/-- The five operations of the rotating file writer. -/
inductive FMOp
  | opInit (dir tag : String) (bpf mf : Nat) (rot ok : Bool)
  | opWrite (data : List Nat) (ok : Bool)
  | opTerminate
  | opSetTag (tag : String)
  | opFlush

/-- Apply one writer operation to a writer state. -/
def FMOp.apply (op : FMOp) (m : FileManager) : FileManager :=
  match op with
  | FMOp.opInit d t b f r ok => (m.init d t b f r ok).1
  | FMOp.opWrite data ok => m.write data ok
  | FMOp.opTerminate => m.terminate
  | FMOp.opSetTag tag => m.setTag tag
  | FMOp.opFlush => m.flush

/-- The writer invariants of the spec: the file index stays in [1, maxFiles]
whenever maxFiles > 0; the accounted bytes stay within the per-file budget
whenever bytesPerFile > 0; and the writer holds exactly one OS handle when
its file pointer is non-null and none otherwise (hence at most one). -/
def FMInv (m : FileManager) : Prop :=
  (0 < m.m_MaxLogFiles →
    1 ≤ m.m_CurrentLogFiles ∧ m.m_CurrentLogFiles ≤ m.m_MaxLogFiles) ∧
  (0 < m.m_BytesPerFile → m.m_CurrentBytes ≤ m.m_BytesPerFile) ∧
  m.openHandles = (if m.hasFile = true then 1 else 0) ∧
  m.openHandles ≤ 1

/-! Helper lemmas about the queue and the worker loop. -/

/-- Folding `post` over a message list never evicts while the capacity bound
is respected: the resulting queue is the original queue followed by the log
tasks in posting order. -/
lemma foldl_post_eq (msgs : List LogMsg) : ∀ q : List task,
    q.length + msgs.length ≤ BLOGGER_TASK_LIMIT →
    List.foldl thread_pool.post q msgs = q ++ List.map task.log msgs := by
  induction msgs with
  | nil =>
      intro q hq
      simp
  | cons m rest ih =>
      intro q hq
      have hne : q.length ≠ BLOGGER_TASK_LIMIT := by
        simp only [List.length_cons] at hq
        omega
      have hpost : thread_pool.post q m = q ++ [task.log m] := by
        simp [thread_pool.post, hne]
      simp only [List.foldl_cons, hpost]
      rw [ih (q ++ [task.log m]) (by simp at hq ⊢; omega)]
      simp

/-- Draining the queue with the worker loop empties it, processes exactly
the queued tasks in order, and appends exactly their events in order. -/
lemma worker_drain_spec : ∀ (n : Nat) (s : PoolState), s.m_TaskQueue.length = n →
    (thread_pool.worker_drain s).m_TaskQueue = [] ∧
    (thread_pool.worker_drain s).processed = s.processed ++ s.m_TaskQueue ∧
    (thread_pool.worker_drain s).events =
      s.events ++ eventsOfQueue s.m_Files s.m_TaskQueue := by
  intro n
  induction n with
  | zero =>
      intro s hs
      have hq : s.m_TaskQueue = [] := List.length_eq_zero.mp hs
      rw [thread_pool.worker_drain]
      simp [hq, eventsOfQueue]
  | succ k ih =>
      intro s hs
      rcases hq : s.m_TaskQueue with _ | ⟨t, rest⟩
      · simp [hq] at hs
      · have hne : ¬ s.m_TaskQueue = [] := by simp [hq]
        rw [thread_pool.worker_drain, dif_neg hne]
        have hdw : (thread_pool.do_work s).1 =
            { m_TaskQueue := rest
              m_Files := (processTask s.m_Files t).1
              events := s.events ++ (processTask s.m_Files t).2
              processed := s.processed ++ [t] } := by
          simp [thread_pool.do_work, hq]
        have hlen : ((thread_pool.do_work s).1).m_TaskQueue.length = k := by
          rw [hdw]
          simp only []
          rw [hq] at hs
          simpa using hs
        obtain ⟨h1, h2, h3⟩ := ih (thread_pool.do_work s).1 hlen
        refine ⟨h1, ?_, ?_⟩
        · rw [h2, hdw]
          simp [hq]
        · rw [h3, hdw]
          simp [hq, eventsOfQueue]

/-- Executing a queue that ends in a flush task emits exactly the events of
the prefix followed by one console flush. -/
lemma eventsOfQueue_flush_last (a : List task) : ∀ files : logger_to_file,
    eventsOfQueue files (a ++ [task.flush]) =
      eventsOfQueue files a ++ [event.consoleFlush] := by
  induction a with
  | nil =>
      intro files
      simp [eventsOfQueue, processTask]
  | cons t rest ih =>
      intro files
      simp [eventsOfQueue, ih]

/-! Claims C1-C4: the task queue and the worker pool. -/

/-- Claim C1 counterexample: the claim says every queue mutation (post,
flush, worker pop) leaves the length at most C = 100, but `thread_pool::flush`
enqueues without any capacity check: after 100 posts into an empty queue,
one flush leaves the queue at length 101 > 100. -/
theorem c1_queue_bound_counterexample :
    (thread_pool.flush
        (List.foldl thread_pool.post []
          (List.replicate BLOGGER_TASK_LIMIT cmsg))).length
      = BLOGGER_TASK_LIMIT + 1 ∧
    ¬ (thread_pool.flush
        (List.foldl thread_pool.post []
          (List.replicate BLOGGER_TASK_LIMIT cmsg))).length
      ≤ BLOGGER_TASK_LIMIT := by
  have h := foldl_post_eq (List.replicate BLOGGER_TASK_LIMIT cmsg) [] (by simp)
  rw [thread_pool.flush, h]
  simp

/-- Claim C1 (amended): the bound length ≤ C = 100 is preserved by `post`
(which evicts the front when full) and by a worker pop (`do_work`), but not
by `flush`, which enqueues a flush task with no capacity check and can
therefore push the length past C. -/
theorem c1_post_pop_preserve_bound (q : List task) (msg : LogMsg)
    (s : PoolState)
    (hq : q.length ≤ BLOGGER_TASK_LIMIT)
    (hs : s.m_TaskQueue.length ≤ BLOGGER_TASK_LIMIT) :
    (thread_pool.post q msg).length ≤ BLOGGER_TASK_LIMIT ∧
    ((thread_pool.do_work s).1).m_TaskQueue.length ≤ BLOGGER_TASK_LIMIT := by
  simp only [BLOGGER_TASK_LIMIT] at hq hs ⊢
  constructor
  · by_cases h : q.length = 100
    · simp [thread_pool.post, BLOGGER_TASK_LIMIT, h]
    · simp [thread_pool.post, BLOGGER_TASK_LIMIT, h]
      omega
  · rcases hq2 : s.m_TaskQueue with _ | ⟨t, rest⟩
    · simp [thread_pool.do_work, hq2]
    · rw [hq2] at hs
      simp only [List.length_cons] at hs
      simp [thread_pool.do_work, hq2]
      omega

/-- Witness for the amended claim C1 at the empty queue and empty pool
state. -/
theorem c1_post_pop_preserve_bound_witness :
    ([] : List task).length ≤ BLOGGER_TASK_LIMIT ∧
    (PoolState.mk [] no_files [] []).m_TaskQueue.length ≤ BLOGGER_TASK_LIMIT ∧
    ((thread_pool.post [] cmsg).length ≤ BLOGGER_TASK_LIMIT ∧
     ((thread_pool.do_work
        (PoolState.mk [] no_files [] [])).1).m_TaskQueue.length
       ≤ BLOGGER_TASK_LIMIT) :=
  ⟨by decide, by decide,
   c1_post_pop_preserve_bound [] cmsg (PoolState.mk [] no_files [] [])
     (by decide) (by decide)⟩

/-- Claim C2: posting into a queue at capacity evicts the front (oldest)
element, inserts the new record at the back, leaves the relative order of
all other tasks unchanged (the result is exactly the tail of the old queue
followed by the new record), keeps the length at capacity, and never rejects
the new record (it is in the resulting queue). -/
theorem c2_post_full_evicts_oldest (q : List task) (msg : LogMsg)
    (hq : q.length = BLOGGER_TASK_LIMIT) :
    thread_pool.post q msg = q.tail ++ [task.log msg] ∧
    (thread_pool.post q msg).length = BLOGGER_TASK_LIMIT ∧
    task.log msg ∈ thread_pool.post q msg := by
  have h1 : thread_pool.post q msg = q.drop 1 ++ [task.log msg] := by
    simp [thread_pool.post, hq]
  refine ⟨by rw [h1, List.drop_one], ?_, ?_⟩
  · rw [h1]
    simp only [BLOGGER_TASK_LIMIT] at hq ⊢
    simp [hq]
  · rw [h1]
    simp

/-- Witness for claim C2 at a full queue of 100 flush tasks. -/
theorem c2_post_full_evicts_oldest_witness :
    (List.replicate BLOGGER_TASK_LIMIT task.flush).length
      = BLOGGER_TASK_LIMIT ∧
    (thread_pool.post (List.replicate BLOGGER_TASK_LIMIT task.flush) cmsg =
        (List.replicate BLOGGER_TASK_LIMIT task.flush).tail ++ [task.log cmsg] ∧
     (thread_pool.post (List.replicate BLOGGER_TASK_LIMIT task.flush)
        cmsg).length = BLOGGER_TASK_LIMIT ∧
     task.log cmsg ∈
       thread_pool.post (List.replicate BLOGGER_TASK_LIMIT task.flush) cmsg) :=
  ⟨by decide,
   c2_post_full_evicts_oldest (List.replicate BLOGGER_TASK_LIMIT task.flush)
     cmsg (by decide)⟩

/-- Claim C3: K posts followed by a flush (K ≤ C) build the queue in exactly
that order; draining processes the tasks in strict FIFO order (the processed
trace equals the enqueue order, the flush last with no priority jump), and
the emitted event trace is the events of the K log records followed by the
console flush, so the flush's console flush happens strictly after all K
posts' console output. -/
theorem c3_fifo_flush_after_posts (msgs : List LogMsg)
    (files : logger_to_file)
    (hK : msgs.length ≤ BLOGGER_TASK_LIMIT) :
    thread_pool.flush (List.foldl thread_pool.post [] msgs) =
      List.map task.log msgs ++ [task.flush] ∧
    (thread_pool.worker_drain
        (PoolState.mk (thread_pool.flush (List.foldl thread_pool.post [] msgs))
          files [] [])).processed =
      List.map task.log msgs ++ [task.flush] ∧
    (thread_pool.worker_drain
        (PoolState.mk (thread_pool.flush (List.foldl thread_pool.post [] msgs))
          files [] [])).events =
      eventsOfQueue files (List.map task.log msgs) ++ [event.consoleFlush] := by
  have hq : thread_pool.flush (List.foldl thread_pool.post [] msgs) =
      List.map task.log msgs ++ [task.flush] := by
    rw [foldl_post_eq msgs [] (by simpa using hK)]
    simp [thread_pool.flush]
  obtain ⟨h1, h2, h3⟩ := worker_drain_spec
    (thread_pool.flush (List.foldl thread_pool.post [] msgs)).length
    (PoolState.mk (thread_pool.flush (List.foldl thread_pool.post [] msgs))
      files [] []) rfl
  refine ⟨hq, ?_, ?_⟩
  · rw [h2]
    simp [hq]
  · rw [h3]
    simp only [List.nil_append]
    rw [hq, eventsOfQueue_flush_last]

/-- Witness for claim C3 with two posted messages and an empty registry. -/
theorem c3_fifo_flush_after_posts_witness :
    ([cmsg, cmsg].length ≤ BLOGGER_TASK_LIMIT) ∧
    (thread_pool.flush (List.foldl thread_pool.post [] [cmsg, cmsg]) =
        List.map task.log [cmsg, cmsg] ++ [task.flush] ∧
     (thread_pool.worker_drain
        (PoolState.mk
          (thread_pool.flush (List.foldl thread_pool.post [] [cmsg, cmsg]))
          no_files [] [])).processed =
        List.map task.log [cmsg, cmsg] ++ [task.flush] ∧
     (thread_pool.worker_drain
        (PoolState.mk
          (thread_pool.flush (List.foldl thread_pool.post [] [cmsg, cmsg]))
          no_files [] [])).events =
        eventsOfQueue no_files (List.map task.log [cmsg, cmsg]) ++
          [event.consoleFlush]) :=
  ⟨by decide, c3_fifo_flush_after_posts [cmsg, cmsg] no_files (by decide)⟩

/-- Claim C4: once the running flag is false, the worker keeps looping while
its last poll found work, so it only exits after the queue is fully drained:
the final queue is empty and every pending task was processed (none
discarded). -/
theorem c4_shutdown_drains_queue (s : PoolState) :
    (thread_pool.worker_drain s).m_TaskQueue = [] ∧
    (thread_pool.worker_drain s).processed = s.processed ++ s.m_TaskQueue := by
  obtain ⟨h1, h2, h3⟩ := worker_drain_spec s.m_TaskQueue.length s rfl
  exact ⟨h1, h2⟩

/-! Projection lemmas for the write helpers. -/

@[simp] lemma finishWrite_index (m : FileManager) (data : List Nat) :
    (m.finishWrite data).m_CurrentLogFiles = m.m_CurrentLogFiles := by
  by_cases h : m.hasFile = true <;> simp [FileManager.finishWrite, h]

@[simp] lemma finishWrite_maxFiles (m : FileManager) (data : List Nat) :
    (m.finishWrite data).m_MaxLogFiles = m.m_MaxLogFiles := by
  by_cases h : m.hasFile = true <;> simp [FileManager.finishWrite, h]

@[simp] lemma finishWrite_bpf (m : FileManager) (data : List Nat) :
    (m.finishWrite data).m_BytesPerFile = m.m_BytesPerFile := by
  by_cases h : m.hasFile = true <;> simp [FileManager.finishWrite, h]

@[simp] lemma finishWrite_bytes (m : FileManager) (data : List Nat) :
    (m.finishWrite data).m_CurrentBytes =
      m.m_CurrentBytes + (data.length + 1) := by
  by_cases h : m.hasFile = true <;> simp [FileManager.finishWrite, h]

@[simp] lemma finishWrite_hasFile (m : FileManager) (data : List Nat) :
    (m.finishWrite data).hasFile = m.hasFile := by
  by_cases h : m.hasFile = true <;> simp [FileManager.finishWrite, h]

@[simp] lemma finishWrite_handles (m : FileManager) (data : List Nat) :
    (m.finishWrite data).openHandles = m.openHandles := by
  by_cases h : m.hasFile = true <;> simp [FileManager.finishWrite, h]

@[simp] lemma newLogFile_index (m : FileManager) (ok : Bool) :
    (m.newLogFile ok).m_CurrentLogFiles = m.m_CurrentLogFiles := by
  cases ok <;> by_cases h : m.hasFile = true <;>
    simp [FileManager.newLogFile, h]

@[simp] lemma newLogFile_maxFiles (m : FileManager) (ok : Bool) :
    (m.newLogFile ok).m_MaxLogFiles = m.m_MaxLogFiles := by
  cases ok <;> by_cases h : m.hasFile = true <;>
    simp [FileManager.newLogFile, h]

@[simp] lemma newLogFile_bpf (m : FileManager) (ok : Bool) :
    (m.newLogFile ok).m_BytesPerFile = m.m_BytesPerFile := by
  cases ok <;> by_cases h : m.hasFile = true <;>
    simp [FileManager.newLogFile, h]

@[simp] lemma newLogFile_bytes (m : FileManager) (ok : Bool) :
    (m.newLogFile ok).m_CurrentBytes = m.m_CurrentBytes := by
  cases ok <;> by_cases h : m.hasFile = true <;>
    simp [FileManager.newLogFile, h]

@[simp] lemma newLogFile_hasFile (m : FileManager) (ok : Bool) :
    (m.newLogFile ok).hasFile = ok := by
  cases ok <;> by_cases h : m.hasFile = true <;>
    simp [FileManager.newLogFile, h]

/-- When the writer holds exactly as many OS handles as its pointer says
(one when open, zero when closed), `newLogFile` reestablishes that: it
closes the old handle before opening the new one. -/
lemma newLogFile_handles (m : FileManager) (ok : Bool)
    (h : m.openHandles = if m.hasFile = true then 1 else 0) :
    (m.newLogFile ok).openHandles =
      (if (m.newLogFile ok).hasFile = true then 1 else 0) := by
  cases ok <;> by_cases hf : m.hasFile = true <;>
    simp [FileManager.newLogFile, hf, h]

/-- Claim C5 counterexample: with maxFiles = 0, rotate = true and
bytesPerFile = 10 > 0, the claim says size-based rotation never fires and
the file index never changes; but after two 6-byte writes the code has taken
the index-increment branch and the file index has moved from 1 to 2. -/
theorem c5_rotation_not_disabled_counterexample :
    c5_m0.m_MaxLogFiles = 0 ∧ c5_m0.m_RotateLogs = true ∧
    c5_m0.m_BytesPerFile = 10 ∧ c5_m0.m_CurrentLogFiles = 1 ∧
    c5_m2.m_CurrentLogFiles = 2 := by
  decide

/-- Claim C5 (amended): with maxFiles = 0 the wrap comparison
`m_CurrentLogFiles == m_MaxLogFiles` never fires (the index, always at least
1, never equals 0), so the index never wraps back: it is monotone and moves
by at most one per write.  But size-based rotation is not disabled: whenever
an accepted record overflows the byte budget, the increment branch runs and
the file index grows by one, so writes do not stay in a fixed single file. -/
theorem c5_no_wrap_index_monotone (m : FileManager) (data : List Nat)
    (ok : Bool)
    (h0 : m.m_MaxLogFiles = 0) (h1 : 1 ≤ m.m_CurrentLogFiles) :
    m.m_CurrentLogFiles ≤ (m.write data ok).m_CurrentLogFiles ∧
    ((m.write data ok).m_CurrentLogFiles = m.m_CurrentLogFiles ∨
     (m.write data ok).m_CurrentLogFiles = m.m_CurrentLogFiles + 1) ∧
    (m.hasFile = true → m.m_BytesPerFile ≠ 0 →
      data.length + 1 ≤ m.m_BytesPerFile →
      m.m_BytesPerFile < m.m_CurrentBytes + (data.length + 1) →
      (m.write data ok).m_CurrentLogFiles = m.m_CurrentLogFiles + 1) := by
  have hne : ¬ m.m_CurrentLogFiles = m.m_MaxLogFiles := by omega
  by_cases hf : m.hasFile = false
  · unfold FileManager.write
    rw [if_pos hf]
    refine ⟨le_refl _, Or.inl rfl, ?_⟩
    intro hopen
    rw [hopen] at hf
    simp at hf
  · unfold FileManager.write
    rw [if_neg hf]
    by_cases hrej : m.m_BytesPerFile ≠ 0 ∧ data.length + 1 > m.m_BytesPerFile
    · rw [if_pos hrej]
      refine ⟨le_refl _, Or.inl rfl, ?_⟩
      intro _ _ hle _
      omega
    · rw [if_neg hrej]
      by_cases hov : m.m_BytesPerFile ≠ 0 ∧
          m.m_CurrentBytes + (data.length + 1) > m.m_BytesPerFile
      · rw [if_pos hov, if_neg hne]
        simp
      · rw [if_neg hov]
        refine ⟨by simp, Or.inl (by simp), ?_⟩
        intro _ hbpf _ hcb
        exact absurd ⟨hbpf, hcb⟩ hov

/-- Witness for the amended claim C5 at the concrete writer `c5_m0`. -/
theorem c5_no_wrap_index_monotone_witness :
    c5_m0.m_MaxLogFiles = 0 ∧ 1 ≤ c5_m0.m_CurrentLogFiles ∧
    (c5_m0.m_CurrentLogFiles ≤
        (c5_m0.write [1, 1, 1, 1, 1, 1] true).m_CurrentLogFiles ∧
     ((c5_m0.write [1, 1, 1, 1, 1, 1] true).m_CurrentLogFiles =
          c5_m0.m_CurrentLogFiles ∨
      (c5_m0.write [1, 1, 1, 1, 1, 1] true).m_CurrentLogFiles =
          c5_m0.m_CurrentLogFiles + 1) ∧
     (c5_m0.hasFile = true → c5_m0.m_BytesPerFile ≠ 0 →
       ([1, 1, 1, 1, 1, 1] : List Nat).length + 1 ≤ c5_m0.m_BytesPerFile →
       c5_m0.m_BytesPerFile <
         c5_m0.m_CurrentBytes + (([1, 1, 1, 1, 1, 1] : List Nat).length + 1) →
       (c5_m0.write [1, 1, 1, 1, 1, 1] true).m_CurrentLogFiles =
         c5_m0.m_CurrentLogFiles + 1)) :=
  ⟨by decide, by decide,
   c5_no_wrap_index_monotone c5_m0 [1, 1, 1, 1, 1, 1] true
     (by decide) (by decide)⟩

/-- Claim C6: when bytesPerFile > 0 and a single record is strictly larger
than bytesPerFile, `write` rejects it outright: the whole writer state is
unchanged, in particular no bytes reach the file and `m_CurrentBytes` is
untouched. -/
theorem c6_oversized_record_rejected (m : FileManager) (data : List Nat)
    (ok : Bool)
    (hbpf : 0 < m.m_BytesPerFile) (hsz : m.m_BytesPerFile < data.length) :
    m.write data ok = m ∧
    (m.write data ok).fileContent = m.fileContent ∧
    (m.write data ok).m_CurrentBytes = m.m_CurrentBytes := by
  have h : m.write data ok = m := by
    by_cases hf : m.hasFile = false
    · unfold FileManager.write
      rw [if_pos hf]
    · have hrej : m.m_BytesPerFile ≠ 0 ∧ data.length + 1 > m.m_BytesPerFile :=
        ⟨by omega, by omega⟩
      unfold FileManager.write
      rw [if_neg hf, if_pos hrej]
  exact ⟨h, by rw [h], by rw [h]⟩

/-- Witness for claim C6 at `fmOpen` with a 6-byte record against a 5-byte
budget. -/
theorem c6_oversized_record_rejected_witness :
    0 < fmOpen.m_BytesPerFile ∧
    fmOpen.m_BytesPerFile < ([1, 2, 3, 4, 5, 6] : List Nat).length ∧
    (fmOpen.write [1, 2, 3, 4, 5, 6] true = fmOpen ∧
     (fmOpen.write [1, 2, 3, 4, 5, 6] true).fileContent = fmOpen.fileContent ∧
     (fmOpen.write [1, 2, 3, 4, 5, 6] true).m_CurrentBytes =
       fmOpen.m_CurrentBytes) :=
  ⟨by decide, by decide,
   c6_oversized_record_rejected fmOpen [1, 2, 3, 4, 5, 6] true
     (by decide) (by decide)⟩

@[simp] lemma newLogFile_state_true (m : FileManager) :
    (m.newLogFile true).m_State = true := by
  by_cases h : m.hasFile = true <;> simp [FileManager.newLogFile, h]

@[simp] lemma newLogFile_content_true (m : FileManager) :
    (m.newLogFile true).fileContent = [] := by
  by_cases h : m.hasFile = true <;> simp [FileManager.newLogFile, h]

lemma finishWrite_content (m : FileManager) (data : List Nat)
    (h : m.hasFile = true) :
    (m.finishWrite data).fileContent = m.fileContent ++ data := by
  simp [FileManager.finishWrite, h]

lemma write_inv (m : FileManager) (data : List Nat) (ok : Bool)
    (h : FMInv m) : FMInv (m.write data ok) := by
  obtain ⟨hIdx, hBytes, hH, hH1⟩ := h
  by_cases hf : m.hasFile = false
  · unfold FileManager.write
    rw [if_pos hf]
    exact ⟨hIdx, hBytes, hH, hH1⟩
  · unfold FileManager.write
    rw [if_neg hf]
    by_cases hrej : m.m_BytesPerFile ≠ 0 ∧ data.length + 1 > m.m_BytesPerFile
    · rw [if_pos hrej]
      exact ⟨hIdx, hBytes, hH, hH1⟩
    · rw [if_neg hrej]
      have hsize : m.m_BytesPerFile ≠ 0 → data.length + 1 ≤ m.m_BytesPerFile := by
        intro hb
        by_contra hcon
        exact hrej ⟨hb, by omega⟩
      by_cases hov : m.m_BytesPerFile ≠ 0 ∧
          m.m_CurrentBytes + (data.length + 1) > m.m_BytesPerFile
      · rw [if_pos hov]
        by_cases heq : m.m_CurrentLogFiles = m.m_MaxLogFiles
        · rw [if_pos heq]
          by_cases hrot : m.m_RotateLogs = false
          · rw [if_pos hrot]
            exact ⟨hIdx, hBytes, hH, hH1⟩
          · rw [if_neg hrot]
            have hh := newLogFile_handles
              { m with m_CurrentLogFiles := 1, m_CurrentBytes := 0 } ok
              (by simpa using hH)
            refine ⟨?_, ?_, ?_, ?_⟩
            · intro hmf
              simp at hmf ⊢
              omega
            · intro hb
              simp at hb ⊢
              have := hsize (by omega)
              omega
            · simp only [finishWrite_handles, finishWrite_hasFile]
              exact hh
            · rw [finishWrite_handles, hh]
              split_ifs <;> omega
        · rw [if_neg heq]
          have hh := newLogFile_handles
            { m with m_CurrentBytes := 0,
                     m_CurrentLogFiles := m.m_CurrentLogFiles + 1 } ok
            (by simpa using hH)
          refine ⟨?_, ?_, ?_, ?_⟩
          · intro hmf
            simp at hmf ⊢
            have := hIdx hmf
            omega
          · intro hb
            simp at hb ⊢
            have := hsize (by omega)
            omega
          · simp only [finishWrite_handles, finishWrite_hasFile]
            exact hh
          · rw [finishWrite_handles, hh]
            split_ifs <;> omega
      · rw [if_neg hov]
        refine ⟨?_, ?_, ?_, ?_⟩
        · intro hmf
          simp at hmf ⊢
          exact hIdx hmf
        · intro hb
          simp at hb ⊢
          by_contra hcon
          exact hov ⟨by omega, by omega⟩
        · simp only [finishWrite_handles, finishWrite_hasFile]
          exact hH
        · rw [finishWrite_handles]
          exact hH1

lemma init_inv (m : FileManager) (d t : String) (b f : Nat) (r ok : Bool)
    (h : FMInv m) : FMInv (m.init d t b f r ok).1 := by
  obtain ⟨hIdx, hBytes, hH, hH1⟩ := h
  have hinit : (m.init d t b f r ok).1 =
      FileManager.newLogFile
        { m with m_CachedTag := t, m_BytesPerFile := b, m_MaxLogFiles := f,
                 m_RotateLogs := r, m_CurrentBytes := 0,
                 m_CurrentLogFiles := 1,
                 m_DirectoryPath := d ++ "/" } ok := rfl
  have hh := newLogFile_handles
    { m with m_CachedTag := t, m_BytesPerFile := b, m_MaxLogFiles := f,
             m_RotateLogs := r, m_CurrentBytes := 0, m_CurrentLogFiles := 1,
             m_DirectoryPath := d ++ "/" } ok (by simpa using hH)
  rw [hinit]
  refine ⟨?_, ?_, hh, ?_⟩
  · intro hmf
    simp at hmf ⊢
    omega
  · intro hb
    simp
  · rw [hh]
    split_ifs <;> omega

lemma terminate_inv (m : FileManager) (h : FMInv m) : FMInv m.terminate := by
  obtain ⟨hIdx, hBytes, hH, hH1⟩ := h
  unfold FileManager.terminate
  by_cases hf : m.hasFile = true
  · rw [if_pos hf]
    exact ⟨by simpa using hIdx, by simpa using hBytes,
           by simp [hH, hf], by simp [hH, hf]⟩
  · rw [if_neg hf]
    exact ⟨hIdx, hBytes, hH, hH1⟩

/-- Claim C7: every writer operation (init, write, terminate, setTag, flush)
preserves the writer invariants: file index in [1, maxFiles] whenever
maxFiles > 0, accounted bytes within the budget whenever bytesPerFile > 0,
and at most one OS handle open at a time. -/
theorem c7_ops_preserve_invariants (op : FMOp) (m : FileManager)
    (h : FMInv m) :
    FMInv (op.apply m) ∧ (op.apply m).openHandles ≤ 1 := by
  have hinv : FMInv (op.apply m) := by
    cases op with
    | opInit d t b f r ok => exact init_inv m d t b f r ok h
    | opWrite data ok => exact write_inv m data ok h
    | opTerminate => exact terminate_inv m h
    | opSetTag tag => exact h
    | opFlush => exact h
  exact ⟨hinv, hinv.2.2.2⟩

/-- Witness for claim C7: a write against the concrete healthy writer
`fmOpen`. -/
theorem c7_ops_preserve_invariants_witness :
    FMInv fmOpen ∧
    (FMInv ((FMOp.opWrite [7, 7] true).apply fmOpen) ∧
     ((FMOp.opWrite [7, 7] true).apply fmOpen).openHandles ≤ 1) := by
  have hinv : FMInv fmOpen := by
    unfold FMInv
    refine ⟨?_, ?_, ?_, ?_⟩ <;> decide
  exact ⟨hinv, c7_ops_preserve_invariants (FMOp.opWrite [7, 7] true) fmOpen hinv⟩

/-! Claims C8-C10: terminate and init lifecycle, sink misses, byte accounting. -/

/-- Claim C8: after `terminate`, a `write` is a complete no-op (the writer
state is unchanged, so the same holds for every further write until a new
init); a subsequent `init` whose open succeeds resets the file index to 1
and the byte count to 0, sets the health flag to true, and reports
success. -/
theorem c8_terminate_write_noop_init_resets (m : FileManager)
    (data : List Nat) (ok : Bool) (d t : String) (bpf mf : Nat) (rot : Bool) :
    m.terminate.write data ok = m.terminate ∧
    ((m.terminate.init d t bpf mf rot true).1.m_CurrentLogFiles = 1 ∧
     (m.terminate.init d t bpf mf rot true).1.m_CurrentBytes = 0 ∧
     (m.terminate.init d t bpf mf rot true).1.m_State = true ∧
     (m.terminate.init d t bpf mf rot true).2 = true) := by
  have hf : m.terminate.hasFile = false := by
    unfold FileManager.terminate
    by_cases h : m.hasFile = true
    · rw [if_pos h]
    · rw [if_neg h]
      simpa using h
  constructor
  · unfold FileManager.write
    rw [if_pos hf]
  · have hinit : (m.terminate.init d t bpf mf rot true).1 =
        FileManager.newLogFile
          { m.terminate with m_CachedTag := t, m_BytesPerFile := bpf,
                             m_MaxLogFiles := mf, m_RotateLogs := rot,
                             m_CurrentBytes := 0, m_CurrentLogFiles := 1,
                             m_DirectoryPath := d ++ "/" } true := rfl
    have hsnd : (m.terminate.init d t bpf mf rot true).2 =
        (m.terminate.init d t bpf mf rot true).1.hasFile := rfl
    rw [hsnd, hinit]
    refine ⟨by simp, by simp, by simp, by simp⟩

/-- Claim C9: a queued log record whose sender id has been unregistered from
the registry is processed with its file-sink write silently skipped (the
registry is unchanged and no file-write event is emitted, with no error and
no retry) while its console write still happens exactly when the console
flag is set. -/
theorem c9_unregistered_sink_silently_skipped (msg : LogMsg)
    (files : logger_to_file) :
    processTask (thread_pool.remove_helper msg.sender files) (task.log msg) =
      (thread_pool.remove_helper msg.sender files,
       if msg.console = true then [event.consoleWrite msg.data] else []) := by
  unfold processTask
  have hmiss : thread_pool.remove_helper msg.sender files msg.sender = none := by
    simp [thread_pool.remove_helper]
  by_cases hf : msg.file = true <;> simp [hf, hmiss]

/-- Claim C10: an accepted write of a record of size s is accounted as s + 1
bytes (`++size` before the checks) while appending exactly s bytes to the
file; consequently a record whose size equals bytesPerFile exactly is
rejected with the writer unchanged; and rotation fires exactly when the
accounted bytes would exceed bytesPerFile, resetting the accounted count to
s + 1 in the fresh file. -/
theorem c10_write_accounting (m : FileManager) (data : List Nat) (ok : Bool)
    (hopen : m.hasFile = true) (hbpf : 0 < m.m_BytesPerFile) :
    (data.length + 1 ≤ m.m_BytesPerFile →
      m.m_CurrentBytes + (data.length + 1) ≤ m.m_BytesPerFile →
      (m.write data ok).m_CurrentBytes = m.m_CurrentBytes + (data.length + 1) ∧
      (m.write data ok).fileContent = m.fileContent ++ data) ∧
    (data.length = m.m_BytesPerFile → m.write data ok = m) ∧
    (data.length + 1 ≤ m.m_BytesPerFile →
      m.m_BytesPerFile < m.m_CurrentBytes + (data.length + 1) →
      m.m_CurrentLogFiles ≠ m.m_MaxLogFiles → ok = true →
      (m.write data ok).m_CurrentBytes = data.length + 1 ∧
      (m.write data ok).m_CurrentLogFiles = m.m_CurrentLogFiles + 1 ∧
      (m.write data ok).fileContent = data) := by
  refine ⟨?_, ?_, ?_⟩
  · intro hsz hnov
    have hway : m.write data ok = m.finishWrite data := by
      unfold FileManager.write
      rw [if_neg (by simp [hopen]), if_neg (by omega), if_neg (by omega)]
    rw [hway]
    exact ⟨by simp, finishWrite_content m data hopen⟩
  · intro hlen
    unfold FileManager.write
    rw [if_neg (by simp [hopen]), if_pos (by omega)]
  · intro hsz hov hne hok
    subst hok
    have hway : m.write data true =
        FileManager.finishWrite
          (FileManager.newLogFile
            { m with m_CurrentBytes := 0,
                     m_CurrentLogFiles := m.m_CurrentLogFiles + 1 } true)
          data := by
      unfold FileManager.write
      rw [if_neg (by simp [hopen]), if_neg (by omega), if_pos (by omega),
          if_neg hne]
    rw [hway]
    refine ⟨by simp, by simp, ?_⟩
    rw [finishWrite_content _ data (by simp), newLogFile_content_true]
    simp

/-- Witness for claim C10 at the concrete writer `fmOpen` and a 3-byte
record. -/
theorem c10_write_accounting_witness :
    fmOpen.hasFile = true ∧ 0 < fmOpen.m_BytesPerFile ∧
    ((([7, 7, 7] : List Nat).length + 1 ≤ fmOpen.m_BytesPerFile →
      fmOpen.m_CurrentBytes + (([7, 7, 7] : List Nat).length + 1) ≤
        fmOpen.m_BytesPerFile →
      (fmOpen.write [7, 7, 7] true).m_CurrentBytes =
        fmOpen.m_CurrentBytes + (([7, 7, 7] : List Nat).length + 1) ∧
      (fmOpen.write [7, 7, 7] true).fileContent =
        fmOpen.fileContent ++ [7, 7, 7]) ∧
     (([7, 7, 7] : List Nat).length = fmOpen.m_BytesPerFile →
      fmOpen.write [7, 7, 7] true = fmOpen) ∧
     (([7, 7, 7] : List Nat).length + 1 ≤ fmOpen.m_BytesPerFile →
      fmOpen.m_BytesPerFile <
        fmOpen.m_CurrentBytes + (([7, 7, 7] : List Nat).length + 1) →
      fmOpen.m_CurrentLogFiles ≠ fmOpen.m_MaxLogFiles → true = true →
      (fmOpen.write [7, 7, 7] true).m_CurrentBytes =
        ([7, 7, 7] : List Nat).length + 1 ∧
      (fmOpen.write [7, 7, 7] true).m_CurrentLogFiles =
        fmOpen.m_CurrentLogFiles + 1 ∧
      (fmOpen.write [7, 7, 7] true).fileContent = [7, 7, 7])) :=
  ⟨by decide, by decide,
   c10_write_accounting fmOpen [7, 7, 7] true (by decide) (by decide)⟩

end BLogger
